import Mathlib

/-!
Verification development for the gator feed-aggregation engine
(github.com/olereon/gator).  The engine's Go source (src/main.go,
src/internal/rss/rss.go and the sqlc query files) is shallowly embedded:
database state is a `Storage` record passed explicitly, database calls are
pure functions on it, fallible infrastructure (the network, injected storage
failures) is passed in as explicit data, wall-clock instants are naturals,
UUIDs are naturals drawn from a supply.
-/

namespace Gator

/-! ## Wall-clock values

`GoTime` stands for Go's `time.Time` as the RSS date parser produces it: a
broken-down civil date-time plus a zone offset (minutes east of UTC).  Go's
zero `time.Time` is January 1 of year 1, 00:00:00 UTC. -/

structure GoTime where
  year : Nat
  month : Nat
  day : Nat
  hour : Nat
  minute : Nat
  second : Nat
  offsetMinutes : Int
  deriving Repr, DecidableEq

def goZeroTime : GoTime :=
  { year := 1, month := 1, day := 1, hour := 0, minute := 0, second := 0, offsetMinutes := 0 }

/-! ## Data model

Rows of the `feeds` and `posts` tables (sql/schema, consumed through the
generated database package).  `lastFetchedAt` is the nullable
`last_fetched_at` column; `none` means never fetched. -/

structure Feed where
  id : Nat
  createdAt : Nat
  updatedAt : Nat
  name : String
  url : String
  userId : Nat
  lastFetchedAt : Option Nat
  deriving Repr, DecidableEq

structure Post where
  id : Nat
  createdAt : Nat
  updatedAt : Nat
  title : String
  url : String
  description : Option String
  publishedAt : Option GoTime
  feedId : Nat
  deriving Repr, DecidableEq

structure Storage where
  feeds : List Feed
  posts : List Post
  deriving Repr, DecidableEq

/-- Number of stored posts whose canonical URL is `u`. -/
def postCount (u : String) (st : Storage) : Nat :=
  (st.posts.filter (fun p => p.url = u)).length

/-- The `posts.url` column is UNIQUE: no two stored posts share a URL. -/
def postsURLUnique (st : Storage) : Prop :=
  ∀ u, postCount u st ≤ 1

/-! ## Database operations (sqlc queries)

`MarkFeedFetched` (sql/queries feeds, `MarkFeedFetched :exec`):
`UPDATE feeds SET last_fetched_at = NOW(), updated_at = NOW() WHERE id = $1`. -/

def MarkFeedFetched (now : Nat) (feedId : Nat) (st : Storage) : Storage :=
  { st with
    feeds := st.feeds.map fun f =>
      if f.id = feedId then { f with lastFetchedAt := some now, updatedAt := now } else f }

/-- The order `last_fetched_at ASC NULLS FIRST` as a boolean total preorder on the
nullable column: NULL sorts before every value, values ascending. -/
def staleLE : Option Nat → Option Nat → Bool
  | none, _ => true
  | some _, none => false
  | some a, some b => a ≤ b

def feedStaleLE (f g : Feed) : Prop := staleLE f.lastFetchedAt g.lastFetchedAt = true

instance : DecidableRel feedStaleLE := fun f g => by unfold feedStaleLE; infer_instance

/-- Query `GetNextFeedsToFetch :many`:
`SELECT * FROM feeds ORDER BY last_fetched_at ASC NULLS FIRST LIMIT $1`.
The sort is embedded as an insertion sort by the NULLS FIRST order. -/
def GetNextFeedsToFetch (limit : Nat) (st : Storage) : List Feed :=
  (st.feeds.insertionSort feedStaleLE).take limit

/-- The exact error string the pq driver reports for a violation of the
`posts_url_key` uniqueness constraint; src/main.go compares against it
verbatim. -/
def postsDupErrMsg : String :=
  "pq: duplicate key value violates unique constraint \"posts_url_key\""

structure CreatePostParams where
  id : Nat
  createdAt : Nat
  updatedAt : Nat
  title : String
  url : String
  description : Option String
  publishedAt : Option GoTime
  feedId : Nat
  deriving Repr, DecidableEq

/-- Query `CreatePost :one`: `INSERT INTO posts ... RETURNING *`.  The UNIQUE
constraint on `posts.url` makes the insert fail with `postsDupErrMsg` when a
post with the same URL is already stored; `fault` injects any other storage
failure (connection loss, etc.) the driver could report for this call. -/
def mkPost (p : CreatePostParams) : Post :=
  { id := p.id, createdAt := p.createdAt, updatedAt := p.updatedAt,
    title := p.title, url := p.url, description := p.description,
    publishedAt := p.publishedAt, feedId := p.feedId }

def CreatePost (fault : Option String) (p : CreatePostParams) (st : Storage) :
    Except String (Post × Storage) :=
  if st.posts.any fun q => q.url = p.url then
    .error postsDupErrMsg
  else
    match fault with
    | some msg => .error msg
    | none => .ok (mkPost p, { st with posts := st.posts ++ [mkPost p] })

/-! ## The fetch worker (src/main.go `scrapeFeed`)

A RawItem as the worker's store loop consumes it: src/main.go reads
`item.Title`, `item.Link`, `item.Description` and `item.PubDate` (the latter
as a time value when building `sql.NullTime`). -/

structure RawItem where
  title : String
  link : String
  description : String
  pubDate : GoTime
  deriving Repr, DecidableEq

/-- The `CreatePostParams` literal built at src/main.go:172-181:
`Description` is NULL iff the description string is empty, `PublishedAt` is
NULL iff the item's publish time is the zero time. -/
def itemParams (now newId feedId : Nat) (item : RawItem) : CreatePostParams :=
  { id := newId, createdAt := now, updatedAt := now,
    title := item.title, url := item.link,
    description := if item.description = "" then none else some item.description,
    publishedAt := if item.pubDate = goZeroTime then none else some item.pubDate,
    feedId := feedId }

/-- The store loop of `scrapeFeed` (src/main.go:170-188): one insert attempt
per item; an error equal to `postsDupErrMsg` is ignored silently, any other
error is logged, and in every case the loop continues with the next item.
`faults` gives the injected non-duplicate failure, if any, for each loop
index; item `i` draws the fresh id `idBase + i`.  Returns the final storage
and the log lines printed. -/
def storePosts (faults : Nat → Option String) (now : Nat) (feed : Feed) (idBase : Nat) :
    List RawItem → Storage → Storage × List String
  | [], st => (st, [])
  | item :: rest, st =>
    match CreatePost (faults 0) (itemParams now idBase feed.id item) st with
    | .ok (_, st') => storePosts (fun i => faults (i + 1)) now feed (idBase + 1) rest st'
    | .error msg =>
      let r := storePosts (fun i => faults (i + 1)) now feed (idBase + 1) rest st
      if msg = postsDupErrMsg then r
      else (r.1, ("Error creating post " ++ item.title ++ ": " ++ msg) :: r.2)

/-- Everything outside the database a single `scrapeFeed` run interacts
with: whether the `MarkFeedFetched` call fails (and with what message), the
outcome of `rss.FetchFeed` (already reduced to the channel's item list), the
injected per-item insert failures, and the worker's fresh-id base. -/
structure ScrapeEnv where
  markFail : Option String
  fetchResult : Except String (List RawItem)
  insertFaults : Nat → Option String
  idBase : Nat

structure ScrapeResult where
  storage : Storage
  fetchAttempted : Bool
  logs : List String

/-- src/main.go:151-189 `scrapeFeed`: mark the feed fetched (abort on
failure), fetch the feed (abort on failure), then store the items.  The Go
function returns nothing; every failure is only printed.  `now` is the
NOW() of this run. -/
def scrapeFeed (env : ScrapeEnv) (now : Nat) (feed : Feed) (st : Storage) : ScrapeResult :=
  match env.markFail with
  | some msg =>
    { storage := st, fetchAttempted := false,
      logs := ["Error marking feed " ++ feed.name ++ " as fetched: " ++ msg] }
  | none =>
    let st1 := MarkFeedFetched now feed.id st
    match env.fetchResult with
    | .error msg =>
      { storage := st1, fetchAttempted := true,
        logs := ["Error fetching feed " ++ feed.name ++ ": " ++ msg] }
    | .ok items =>
      let r := storePosts env.insertFaults now feed env.idBase items st1
      { storage := r.1, fetchAttempted := true,
        logs := ("Found " ++ toString items.length ++ " posts in " ++ feed.name) :: r.2 }

/-! ## One scheduler tick (src/main.go `scrapeFeeds`)

The goroutines of one tick all write to disjoint feed rows and the storage
layer serialises the post inserts, so the tick is embedded as the sequential
composition of its workers; the dispatched worker set itself is what claims
C3/C4 are about. -/

def runWorkers (envs : Nat → ScrapeEnv) (now : Nat) :
    List Feed → Storage → Storage × List String
  | [], st => (st, [])
  | f :: fs, st =>
    let r := scrapeFeed (envs 0) now f st
    let rest := runWorkers (fun i => envs (i + 1)) now fs r.storage
    (rest.1, r.logs ++ rest.2)

structure TickResult where
  storage : Storage
  workers : List Feed
  logs : List String

/-- src/main.go:191-212 `scrapeFeeds`: select up to `concurrency` stale
feeds; with zero feeds print and return (no error, no workers); otherwise
start one `scrapeFeed` goroutine per selected feed and wait for all of them.
The Go function returns nothing: no error can propagate to its caller. -/
def scrapeFeeds (envs : Nat → ScrapeEnv) (now : Nat) (concurrency : Nat) (st : Storage) :
    TickResult :=
  let feeds := GetNextFeedsToFetch concurrency st
  if feeds.isEmpty then
    { storage := st, workers := [], logs := ["No feeds to fetch"] }
  else
    let r := runWorkers envs now feeds st
    { storage := r.1, workers := feeds,
      logs := ("Fetching " ++ toString feeds.length ++ " feeds concurrently") :: r.2 }

/-! ## The aggregation loop's timer (src/main.go `handlerAgg`)

src/main.go:238-241 runs
`ticker := time.NewTicker(d); for ; ; <-ticker.C { scrapeFeeds(s, c) }`:
the first tick runs immediately, and after each tick the loop blocks on the
ticker channel.  Go's `time.Ticker` emits on a channel of capacity one at
wall-clock times d, 2d, 3d, ... and drops an emission while the channel is
full ("adjusts the time interval or drops ticks to make up for slow
receivers").  So a receive performed at time `f`, when the previous receive
(or loop start) returned at time `p`, returns at `f` itself if some emission
landed in the interval (p, f] — the first such emission is `d * (p / d + 1)`
— and otherwise blocks until that emission. -/

def nextTickStart (d p f : Nat) : Nat := max f (d * (p / d + 1))

/-- The (start, finish) times of successive `scrapeFeeds` calls of the
aggregation loop, given the interval `d`, the durations of the calls and the
start time of the first call.  Each tick's body runs to completion before
the loop reaches the ticker receive that starts the next tick. -/
def tickTrace (d : Nat) : List Nat → Nat → List (Nat × Nat)
  | [], _ => []
  | dur :: rest, s => (s, s + dur) :: tickTrace d rest (nextTickStart d s (s + dur))

/-- The loop body runs first, before the first ticker receive, so the first
tick starts at time 0. -/
def handlerAggTrace (d : Nat) (durs : List Nat) : List (Nat × Nat) :=
  tickTrace d durs 0

/-! ## The feed reader (src/internal/rss/rss.go `FetchFeed`)

The RSS document types of rss.go.  Note: rss.go declares `RSSItem.PubDate`
as the raw string of the document with the separate `ParsePubDate` method
below, while src/main.go consumes `item.PubDate` as a time value; the
worker embedding above takes `RawItem` with the time-valued view. -/

structure RSSItem where
  title : String
  link : String
  description : String
  pubDate : String
  deriving Repr, DecidableEq

structure RSSChannel where
  title : String
  link : String
  description : String
  item : List RSSItem
  deriving Repr, DecidableEq

structure RSSFeed where
  channel : RSSChannel
  deriving Repr, DecidableEq

/-- Go `context.Context`, reduced to the one datum `FetchFeed`'s request can
carry: the deadline, if any.  `context.Background()` has none. -/
structure Context where
  deadline : Option Nat
  deriving Repr, DecidableEq

def contextBackground : Context := { deadline := none }

/-- An HTTP request as `FetchFeed` issues it: built by
`http.NewRequestWithContext(ctx, "GET", feedURL, nil)`, with the User-Agent
header set afterwards, and executed by a client whose `Timeout` field is the
zero value (no timeout).  `ctxDeadline` is the deadline of the context the
request was built with. -/
structure HTTPRequest where
  method : String
  url : String
  userAgent : String
  ctxDeadline : Option Nat
  clientTimeout : Option Nat
  deriving Repr, DecidableEq

/-- What the network does with an issued request: `client.Do` fails, reading
the body fails, or a response (status code and full body) arrives. -/
inductive NetOutcome where
  | doFail (msg : String)
  | readFail (msg : String)
  | success (status : Nat) (body : String)
  deriving Repr, DecidableEq

/-- The provenance of a `FetchFeed` error, following which call of rss.go
produced it: request construction, `client.Do`, `io.ReadAll`, or
`xml.Unmarshal`. -/
inductive FetchErr where
  | reqErr (msg : String)
  | netErr (msg : String)
  | readErr (msg : String)
  | parseErr (msg : String)
  deriving Repr, DecidableEq

/-- rss.go:86-94: `html.UnescapeString` applied to the channel's title and
description and to every item's title and description (links and dates are
left alone).  `unescape` stands for the library function. -/
def unescapeFeed (unescape : String → String) (f : RSSFeed) : RSSFeed :=
  { channel :=
    { f.channel with
      title := unescape f.channel.title,
      description := unescape f.channel.description,
      item := f.channel.item.map fun it =>
        { it with title := unescape it.title, description := unescape it.description } } }

/-- The request rss.go:57-66 builds and issues: a GET on the feed URL with
the caller's context, the `User-Agent: gator` header, executed through
`&http.Client{}` — a client with the zero (absent) `Timeout`. -/
def fetchRequest (ctx : Context) (feedURL : String) : HTTPRequest :=
  { method := "GET", url := feedURL, userAgent := "gator",
    ctxDeadline := ctx.deadline, clientTimeout := none }

/-- src/internal/rss/rss.go:55-97 `FetchFeed`.  Library collaborators are
parameters: `urlValid` is `http.NewRequestWithContext` succeeding on the
URL, `unescape` is `html.UnescapeString`, `xmlDecode` is `xml.Unmarshal`
into `RSSFeed`, `net` is the network.  Returns the Go result paired with
the list of HTTP requests the call issued.  The response's status code is
never consulted: only the body reaches `xmlDecode`. -/
def FetchFeed (urlValid : String → Bool) (unescape : String → String)
    (xmlDecode : String → Except String RSSFeed)
    (net : HTTPRequest → NetOutcome) (ctx : Context) (feedURL : String) :
    Except FetchErr RSSFeed × List HTTPRequest :=
  if urlValid feedURL then
    let req : HTTPRequest := fetchRequest ctx feedURL
    match net req with
    | .doFail msg => (.error (.netErr msg), [req])
    | .readFail msg => (.error (.readErr msg), [req])
    | .success _ body =>
      match xmlDecode body with
      | .error msg => (.error (.parseErr msg), [req])
      | .ok feed => (.ok (unescapeFeed unescape feed), [req])
  else (.error (.reqErr "net/url: invalid URL"), [])

/-- The fetch call of the worker, src/main.go:162: `scrapeFeed` passes
`context.Background()` — a context with no deadline — to `rss.FetchFeed`. -/
def scrapeFeedFetch (urlValid : String → Bool) (unescape : String → String)
    (xmlDecode : String → Except String RSSFeed)
    (net : HTTPRequest → NetOutcome) (feedURL : String) :
    Except FetchErr RSSFeed × List HTTPRequest :=
  FetchFeed urlValid unescape xmlDecode net contextBackground feedURL

/-! ## Publish-date parsing (src/internal/rss/rss.go `ParsePubDate`)

`ParsePubDate` tries, in order, the layouts

  time.RFC1123Z, time.RFC1123, "Mon, 2 Jan 2006 15:04:05 -0700",
  "Mon, 02 Jan 2006 15:04:05 -0700" (a duplicate of RFC1123Z),
  "2006-01-02T15:04:05Z07:00", "2006-01-02T15:04:05Z",
  "2006-01-02 15:04:05"

with Go's `time.Parse`, and the first layout that parses wins.  Each layout
is embedded as a character-list parser mirroring `time.Parse` on that
layout: fixed-width two-digit fields for the zero-padded layout elements, a
one-or-two-digit day for "2", case-insensitive weekday and month names (the
weekday is not cross-checked against the date), a `±hhmm` numeric zone for
"-0700", an abbreviated zone name for "MST" (resolved to offset 0 when the
name is not the local zone, as `time.Parse` does without a location), `Z` or
`±hh:mm` for "Z07:00", and whole-input consumption with the ranges of
month, day (per month and leap year), hour, minute and second validated. -/

def digitVal (c : Char) : Nat := c.toNat - '0'.toNat

def readDigits2 : List Char → Option (Nat × List Char)
  | a :: b :: rest =>
    if a.isDigit && b.isDigit then some (digitVal a * 10 + digitVal b, rest) else none
  | _ => none

def readDigits4 : List Char → Option (Nat × List Char)
  | a :: b :: c :: d :: rest =>
    if a.isDigit && b.isDigit && c.isDigit && d.isDigit then
      some (((digitVal a * 10 + digitVal b) * 10 + digitVal c) * 10 + digitVal d, rest)
    else none
  | _ => none

/-- Go's `getnum` with `fixed = false` (layout "2"): one digit, and a second
when present. -/
def readDigits1or2 : List Char → Option (Nat × List Char)
  | a :: b :: rest =>
    if a.isDigit then
      if b.isDigit then some (digitVal a * 10 + digitVal b, rest)
      else some (digitVal a, b :: rest)
    else none
  | [a] => if a.isDigit then some (digitVal a, []) else none
  | [] => none

def expectChar (c : Char) : List Char → Option (List Char)
  | x :: rest => if x = c then some rest else none
  | [] => none

/-- ASCII-case-insensitive character match, as Go's layout `match` does it. -/
def chEqCI (a b : Char) : Bool :=
  a = b || (a.isAlpha && b.isAlpha && a.toLower = b.toLower)

def readNameCI : List Char → List Char → Option (List Char)
  | [], s => some s
  | _ :: _, [] => none
  | n :: ns, c :: cs => if chEqCI n c then readNameCI ns cs else none

def weekdayNames : List (List Char) :=
  [['S','u','n'], ['M','o','n'], ['T','u','e'], ['W','e','d'],
   ['T','h','u'], ['F','r','i'], ['S','a','t']]

def monthNames : List (List Char) :=
  [['J','a','n'], ['F','e','b'], ['M','a','r'], ['A','p','r'],
   ['M','a','y'], ['J','u','n'], ['J','u','l'], ['A','u','g'],
   ['S','e','p'], ['O','c','t'], ['N','o','v'], ['D','e','c']]

def readFromNames (names : List (List Char)) (k : Nat) (s : List Char) :
    Option (Nat × List Char) :=
  match names with
  | [] => none
  | n :: ns =>
    match readNameCI n s with
    | some rest => some (k, rest)
    | none => readFromNames ns (k + 1) s

/-- A weekday name; `time.Parse` checks the name is a weekday but never that
it matches the date. -/
def readWeekday (s : List Char) : Option (List Char) :=
  match readFromNames weekdayNames 0 s with
  | some (_, rest) => some rest
  | none => none

def readMonthName (s : List Char) : Option (Nat × List Char) :=
  readFromNames monthNames 1 s

/-- Numeric zone `±hhmm` (layout "-0700"): offset in minutes east of UTC. -/
def readNumTZ : List Char → Option (Int × List Char)
  | c :: rest =>
    if c = '+' || c = '-' then
      match readDigits2 rest with
      | some (hh, r1) =>
        match readDigits2 r1 with
        | some (mm, r2) =>
          some ((if c = '-' then -1 else 1) * ((hh * 60 + mm : Nat) : Int), r2)
        | none => none
      | none => none
    else none
  | [] => none

def isUpperChar (c : Char) : Bool := 'A' ≤ c && c ≤ 'Z'

/-- Abbreviated zone name (layout "MST"): a run of three or four capital
letters.  Without a location to resolve the name, `time.Parse` records it
with offset 0, which is also the offset of UTC/GMT. -/
def readAbbrevTZ (s : List Char) : Option (Int × List Char) :=
  let run := s.takeWhile isUpperChar
  if run.length = 3 || run.length = 4 then some (0, s.drop run.length) else none

/-- ISO-8601 zone with colon (layout "Z07:00"): `Z`, or `±hh:mm`. -/
def readISOColonTZ : List Char → Option (Int × List Char)
  | 'Z' :: rest => some (0, rest)
  | c :: rest =>
    if c = '+' || c = '-' then
      match readDigits2 rest with
      | some (hh, r1) =>
        match expectChar ':' r1 with
        | some r2 =>
          match readDigits2 r2 with
          | some (mm, r3) =>
            some ((if c = '-' then -1 else 1) * ((hh * 60 + mm : Nat) : Int), r3)
          | none => none
        | none => none
      | none => none
    else none
  | [] => none

def isLeapYear (y : Nat) : Bool := y % 4 = 0 && (y % 100 ≠ 0 || y % 400 = 0)

def daysInMonth (year month : Nat) : Nat :=
  if month = 2 then (if isLeapYear year then 29 else 28)
  else if month = 4 ∨ month = 6 ∨ month = 9 ∨ month = 11 then 30
  else 31

/-- The range checks `time.Parse` performs on the assembled date. -/
def validDate (t : GoTime) : Bool :=
  1 ≤ t.month && t.month ≤ 12 && 1 ≤ t.day && t.day ≤ daysInMonth t.year t.month &&
    t.hour ≤ 23 && t.minute ≤ 59 && t.second ≤ 59

/-- Clock part `15:04:05`: (hour, minute, second) and the rest. -/
def readHMS (s : List Char) : Option ((Nat × Nat × Nat) × List Char) := do
  let (hour, s) ← readDigits2 s
  let s ← expectChar ':' s
  let (minute, s) ← readDigits2 s
  let s ← expectChar ':' s
  let (second, s) ← readDigits2 s
  some ((hour, minute, second), s)

/-- Date part of the RFC-1123 family, `Mon, 02 Jan 2006 ` with a trailing
blank: (day, month, year) and the rest; day zero-padded when `dayFixed`. -/
def readRFCDate (dayFixed : Bool) (s : List Char) :
    Option ((Nat × Nat × Nat) × List Char) := do
  let s ← readWeekday s
  let s ← expectChar ',' s
  let s ← expectChar ' ' s
  let (day, s) ← if dayFixed then readDigits2 s else readDigits1or2 s
  let s ← expectChar ' ' s
  let (month, s) ← readMonthName s
  let s ← expectChar ' ' s
  let (year, s) ← readDigits4 s
  let s ← expectChar ' ' s
  some ((day, month, year), s)

/-- The RFC-1123 family: weekday ", " day " " month-name " " year " "
hh:mm:ss " " zone, day zero-padded when `dayFixed`. -/
def parseRFC1123Core (dayFixed : Bool) (zone : List Char → Option (Int × List Char))
    (s : List Char) : Option GoTime := do
  let (dmy, s) ← readRFCDate dayFixed s
  let (hms, s) ← readHMS s
  let s ← expectChar ' ' s
  let (off, s) ← zone s
  let t : GoTime :=
    { year := dmy.2.2, month := dmy.2.1, day := dmy.1, hour := hms.1,
      minute := hms.2.1, second := hms.2.2, offsetMinutes := off }
  if s = [] ∧ validDate t then some t else none

/-- Date part `2006-01-02` plus the separator: (year, month, day), rest. -/
def readISODate (sep : Char) (s : List Char) :
    Option ((Nat × Nat × Nat) × List Char) := do
  let (year, s) ← readDigits4 s
  let s ← expectChar '-' s
  let (month, s) ← readDigits2 s
  let s ← expectChar '-' s
  let (day, s) ← readDigits2 s
  let s ← expectChar sep s
  some ((year, month, day), s)

/-- Date-time `2006-01-02` sep `15:04:05`, offset filled in by the caller. -/
def readISODateTime (sep : Char) (s : List Char) : Option (GoTime × List Char) := do
  let (ymd, s) ← readISODate sep s
  let (hms, s) ← readHMS s
  let t : GoTime :=
    { year := ymd.1, month := ymd.2.1, day := ymd.2.2, hour := hms.1,
      minute := hms.2.1, second := hms.2.2, offsetMinutes := 0 }
  some (t, s)

/-- Layout "2006-01-02T15:04:05Z07:00". -/
def parseISOColonTZFmt (s : List Char) : Option GoTime := do
  let (t, s) ← readISODateTime 'T' s
  let (off, s) ← readISOColonTZ s
  if s = [] ∧ validDate t then some { t with offsetMinutes := off } else none

/-- Layout "2006-01-02T15:04:05Z": the trailing `Z` is a literal (it is not
followed by a zone pattern), and with no zone element the time is UTC. -/
def parseISOLitZ (s : List Char) : Option GoTime := do
  let (t, s) ← readISODateTime 'T' s
  let s ← expectChar 'Z' s
  if s = [] ∧ validDate t then some t else none

/-- Layout "2006-01-02 15:04:05": no zone element, the time is UTC. -/
def parseBareDateTime (s : List Char) : Option GoTime := do
  let (t, s) ← readISODateTime ' ' s
  if s = [] ∧ validDate t then some t else none

/-- The `formats` slice of rss.go:35-43, in source order, each entry as the
`time.Parse` of its layout. -/
def rssDateFormats : List (String → Option GoTime) :=
  [ fun s => parseRFC1123Core true readNumTZ s.toList,
    fun s => parseRFC1123Core true readAbbrevTZ s.toList,
    fun s => parseRFC1123Core false readNumTZ s.toList,
    fun s => parseRFC1123Core true readNumTZ s.toList,
    fun s => parseISOColonTZFmt s.toList,
    fun s => parseISOLitZ s.toList,
    fun s => parseBareDateTime s.toList ]

/-- First-successful-parse-wins over a format list. -/
def parseFirst : List (String → Option GoTime) → String → Option GoTime
  | [], _ => none
  | p :: ps, s =>
    match p s with
    | some t => some t
    | none => parseFirst ps s

/-- src/internal/rss/rss.go:29-53 `ParsePubDate`: the empty string yields
the zero time with a nil error; otherwise the formats are tried in order
and the first success wins; when every format fails the zero time is
returned, again with a nil error.  The second component is the Go `error`
return value. -/
def ParsePubDate (pubDate : String) : GoTime × Option String :=
  if pubDate = "" then (goZeroTime, none)
  else
    match parseFirst rssDateFormats pubDate with
    | some t => (t, none)
    | none => (goZeroTime, none)

/-! The instant a `GoTime` encodes, as Unix seconds (`time.Time.Unix`),
via the standard civil-from-days conversion on the proleptic Gregorian
calendar. -/

def daysFromCivil (y m d : Nat) : Int :=
  let yi : Int := if m ≤ 2 then (y : Int) - 1 else (y : Int)
  let era : Int := yi.fdiv 400
  let yoe : Int := yi - era * 400
  let mp : Int := ((m : Int) + 9).emod 12
  let doy : Int := (153 * mp + 2).fdiv 5 + (d : Int) - 1
  let doe : Int := yoe * 365 + yoe.fdiv 4 - yoe.fdiv 100 + doy
  era * 146097 + doe - 719468

def goTimeToUnix (t : GoTime) : Int :=
  daysFromCivil t.year t.month t.day * 86400 +
    (t.hour : Int) * 3600 + (t.minute : Int) * 60 + (t.second : Int) -
    t.offsetMinutes * 60

/-! ## Helper lemmas about the freshness order and the selector -/

lemma staleLE_refl (x : Option Nat) : staleLE x x = true := by
  cases x with
  | none => rfl
  | some a => simp [staleLE]

lemma staleLE_total (x y : Option Nat) : staleLE x y = true ∨ staleLE y x = true := by
  cases x with
  | none => exact Or.inl rfl
  | some a =>
    cases y with
    | none => exact Or.inr rfl
    | some b => simpa [staleLE] using Nat.le_total a b

lemma staleLE_trans {x y z : Option Nat} (h1 : staleLE x y = true) (h2 : staleLE y z = true) :
    staleLE x z = true := by
  cases x with
  | none => rfl
  | some a =>
    cases y with
    | none => simp [staleLE] at h1
    | some b =>
      cases z with
      | none => simp [staleLE] at h2
      | some c =>
        simp only [staleLE, decide_eq_true_eq] at h1 h2 ⊢
        exact Nat.le_trans h1 h2

instance : IsTotal Feed feedStaleLE :=
  ⟨fun f g => staleLE_total f.lastFetchedAt g.lastFetchedAt⟩

instance : IsTrans Feed feedStaleLE :=
  ⟨fun _ _ _ h1 h2 => staleLE_trans h1 h2⟩

/-- Feed `g` comes strictly before `f` in the NULLS FIRST ascending order. -/
def strictStaler (f g : Feed) : Bool := !(staleLE f.lastFetchedAt g.lastFetchedAt)

lemma filter_length_lt_of_mem {α : Type} {p : α → Bool} :
    ∀ {l : List α} {a : α}, a ∈ l → p a = false → (l.filter p).length < l.length := by
  intro l
  induction l with
  | nil => intro a ha _; cases ha
  | cons b t ih =>
    intro a ha hpa
    rcases List.mem_cons.mp ha with rfl | hat
    · rw [List.filter_cons, hpa]
      exact Nat.lt_succ_of_le (List.length_filter_le p t)
    · rw [List.filter_cons]
      cases hpb : p b
      · exact Nat.lt_succ_of_lt (ih hat hpa)
      · simpa using Nat.succ_lt_succ (ih hat hpa)

lemma nextFeeds_length_le (limit : Nat) (st : Storage) :
    (GetNextFeedsToFetch limit st).length ≤ limit := by
  simp only [GetNextFeedsToFetch, List.length_take]
  exact Nat.min_le_left _ _

lemma nextFeeds_sorted (limit : Nat) (st : Storage) :
    (GetNextFeedsToFetch limit st).Sorted feedStaleLE :=
  (List.sorted_insertionSort feedStaleLE st.feeds).sublist (List.take_sublist limit _)

lemma nextFeeds_subset {limit : Nat} {st : Storage} {f : Feed}
    (hf : f ∈ GetNextFeedsToFetch limit st) : f ∈ st.feeds :=
  (List.perm_insertionSort feedStaleLE st.feeds).mem_iff.mp
    (List.mem_of_mem_take hf)

lemma nextFeeds_nodup {limit : Nat} {st : Storage}
    (h : (st.feeds.map Feed.id).Nodup) :
    ((GetNextFeedsToFetch limit st).map Feed.id).Nodup := by
  have hperm : List.Perm ((st.feeds.insertionSort feedStaleLE).map Feed.id)
      (st.feeds.map Feed.id) :=
    (List.perm_insertionSort feedStaleLE st.feeds).map Feed.id
  have hS : ((st.feeds.insertionSort feedStaleLE).map Feed.id).Nodup := hperm.nodup_iff.mpr h
  have : (GetNextFeedsToFetch limit st).map Feed.id =
      ((st.feeds.insertionSort feedStaleLE).map Feed.id).take limit := by
    simp [GetNextFeedsToFetch, List.map_take]
  rw [this]
  exact hS.sublist (List.take_sublist limit _)

/-- A selected feed has fewer than `limit` feeds strictly before it in the
staleness order: a feed is only fetched once it is among the `limit`
least-recently-fetched. -/
lemma nextFeeds_few_staler {limit : Nat} {st : Storage} {f : Feed}
    (hf : f ∈ GetNextFeedsToFetch limit st) :
    (st.feeds.filter (strictStaler f)).length < limit := by
  set S := st.feeds.insertionSort feedStaleLE with hS
  have hperm : List.Perm S st.feeds := List.perm_insertionSort feedStaleLE st.feeds
  have hlen : (st.feeds.filter (strictStaler f)).length = (S.filter (strictStaler f)).length :=
    ((hperm.filter (strictStaler f)).length_eq).symm
  have hsplit : S = S.take limit ++ S.drop limit := (List.take_append_drop limit S).symm
  have hsorted : S.Sorted feedStaleLE := List.sorted_insertionSort feedStaleLE st.feeds
  have hpair : ∀ a ∈ S.take limit, ∀ b ∈ S.drop limit, feedStaleLE a b := by
    have := hsorted
    rw [hsplit] at this
    exact fun a ha b hb => ((List.pairwise_append.mp this).2.2) a ha b hb
  have hdrop : (S.drop limit).filter (strictStaler f) = [] := by
    apply List.filter_eq_nil_iff.mpr
    intro b hb
    have hle : staleLE f.lastFetchedAt b.lastFetchedAt = true := hpair f hf b hb
    simp [strictStaler, hle]
  have hself : strictStaler f f = false := by
    simp [strictStaler, staleLE_refl]
  have htake : ((S.take limit).filter (strictStaler f)).length < (S.take limit).length :=
    filter_length_lt_of_mem hf hself
  calc (st.feeds.filter (strictStaler f)).length
      = (S.filter (strictStaler f)).length := hlen
    _ = ((S.take limit).filter (strictStaler f)).length
        + ((S.drop limit).filter (strictStaler f)).length := by
          rw [hsplit, List.filter_append, List.length_append]
          simp [hdrop]
    _ = ((S.take limit).filter (strictStaler f)).length := by rw [hdrop]; simp
    _ < (S.take limit).length := htake
    _ ≤ limit := by
          simp only [List.length_take]
          exact Nat.min_le_left _ _

/-! ## Frame helpers -/

/-- The worker leaves a feed row's identity columns alone: id, url, name,
owning user and creation timestamp. -/
def feedIdentityEq (f g : Feed) : Prop :=
  g.id = f.id ∧ g.url = f.url ∧ g.name = f.name ∧ g.userId = f.userId ∧ g.createdAt = f.createdAt

lemma storePosts_feeds (faults : Nat → Option String) (now : Nat) (feed : Feed) (idBase : Nat) :
    ∀ (items : List RawItem) (st : Storage),
      (storePosts faults now feed idBase items st).1.feeds = st.feeds := by
  intro items
  induction items generalizing faults idBase with
  | nil => intro st; rfl
  | cons item rest ih =>
    intro st
    show (storePosts faults now feed idBase (item :: rest) st).1.feeds = st.feeds
    rw [storePosts]
    rcases hc : CreatePost (faults 0) (itemParams now idBase feed.id item) st with msg | pr
    · dsimp only
      split
      · exact ih _ _ st
      · exact ih _ _ st
    · have hfeeds : pr.2.feeds = st.feeds := by
        rcases pr with ⟨post, st'⟩
        unfold CreatePost at hc
        split at hc
        · cases hc
        · split at hc
          · cases hc
          · cases hc; rfl
      dsimp only
      rw [ih _ _ pr.2, hfeeds]

lemma forall₂_map_self {α : Type} {R : α → α → Prop} {u : α → α} (h : ∀ x, R x (u x)) :
    ∀ l : List α, List.Forall₂ R l (l.map u)
  | [] => List.Forall₂.nil
  | x :: xs => List.Forall₂.cons (h x) (forall₂_map_self h xs)

lemma markFeedFetched_forall₂ (now fid : Nat) (st : Storage) :
    List.Forall₂ feedIdentityEq st.feeds (MarkFeedFetched now fid st).feeds := by
  apply forall₂_map_self
  intro f
  split <;> exact ⟨rfl, rfl, rfl, rfl, rfl⟩

lemma scrapeFeed_forall₂ (env : ScrapeEnv) (now : Nat) (feed : Feed) (st : Storage) :
    List.Forall₂ feedIdentityEq st.feeds (scrapeFeed env now feed st).storage.feeds := by
  unfold scrapeFeed
  rcases env.markFail with _ | msg
  · rcases hfr : env.fetchResult with msg | items
    · simpa [hfr] using markFeedFetched_forall₂ now feed.id st
    · simp only [hfr]
      rw [storePosts_feeds]
      exact markFeedFetched_forall₂ now feed.id st
  · exact (List.forall₂_same (l := st.feeds)).mpr fun x _ => ⟨rfl, rfl, rfl, rfl, rfl⟩

/-! ## Concrete fixtures for scenarios and witnesses -/

/-- Never fetched. -/
def c4FeedA : Feed :=
  { id := 1, createdAt := 0, updatedAt := 0, name := "A", url := "http://a.example/rss",
    userId := 7, lastFetchedAt := none }

/-- Fetched an hour ago (at 100, an hour before now = 3700). -/
def c4FeedB : Feed :=
  { id := 2, createdAt := 0, updatedAt := 0, name := "B", url := "http://b.example/rss",
    userId := 7, lastFetchedAt := some 100 }

/-- Fetched five minutes ago (at 3400). -/
def c4FeedC : Feed :=
  { id := 3, createdAt := 0, updatedAt := 0, name := "C", url := "http://c.example/rss",
    userId := 7, lastFetchedAt := some 3400 }

def c4Storage : Storage := { feeds := [c4FeedB, c4FeedC, c4FeedA], posts := [] }

/-- A benign worker environment for witnesses. -/
def witnessEnv : ScrapeEnv :=
  { markFail := none, fetchResult := .ok [], insertFaults := fun _ => none, idBase := 50 }

/-- C4: for every feed set and limit, the Freshness Selector returns at most
`limit` feeds, ordered by last-fetched ascending with never-fetched (NULL)
feeds first, all drawn from storage; and on feeds A (never fetched),
B (fetched an hour ago), C (fetched five minutes ago) with limit 2 it
returns exactly [A, B] in that order. -/
theorem C4_selector_order_and_scenario :
    (∀ limit st, (GetNextFeedsToFetch limit st).length ≤ limit ∧
      (GetNextFeedsToFetch limit st).Sorted feedStaleLE ∧
      ∀ f ∈ GetNextFeedsToFetch limit st, f ∈ st.feeds) ∧
    GetNextFeedsToFetch 2 c4Storage = [c4FeedA, c4FeedB] := by
  refine ⟨fun limit st => ⟨nextFeeds_length_le limit st, nextFeeds_sorted limit st,
    fun f hf => nextFeeds_subset hf⟩, ?_⟩
  decide

/-- C3: every tick dispatches exactly one worker per feed the selector
returned (and so never more than the configured concurrency `C`), no feed
id repeats in the worker set, and a tick whose selection is empty dispatches
no workers, mutates nothing, and only prints — no error is raised. -/
theorem C3_tick_dispatch (envs : Nat → ScrapeEnv) (now C : Nat) (st : Storage)
    (h : (st.feeds.map Feed.id).Nodup) :
    (scrapeFeeds envs now C st).workers = GetNextFeedsToFetch C st ∧
    (scrapeFeeds envs now C st).workers.length ≤ C ∧
    ((scrapeFeeds envs now C st).workers.map Feed.id).Nodup ∧
    (GetNextFeedsToFetch C st = [] →
      scrapeFeeds envs now C st =
        { storage := st, workers := [], logs := ["No feeds to fetch"] }) := by
  have hw : (scrapeFeeds envs now C st).workers = GetNextFeedsToFetch C st := by
    unfold scrapeFeeds
    by_cases hemp : (GetNextFeedsToFetch C st).isEmpty
    · simp [hemp, List.isEmpty_iff.mp hemp]
    · simp [hemp]
  refine ⟨hw, ?_, ?_, ?_⟩
  · rw [hw]; exact nextFeeds_length_le C st
  · rw [hw]; exact nextFeeds_nodup h
  · intro hnil
    unfold scrapeFeeds
    rw [hnil]
    rfl

theorem C3_tick_dispatch_witness :
    (scrapeFeeds (fun _ => witnessEnv) 3700 2 c4Storage).workers = [c4FeedA, c4FeedB] ∧
    (scrapeFeeds (fun _ => witnessEnv) 3700 2 c4Storage).workers.length ≤ 2 := by
  have h := C3_tick_dispatch (fun _ => witnessEnv) 3700 2 c4Storage (by decide)
  refine ⟨?_, h.2.1⟩
  rw [h.1]
  decide

/-- C2: when the mark-fetched write succeeds and the subsequent network
fetch fails, the fetch was attempted (after the write), the run's only
storage effect is the `MarkFeedFetched` update, every feed row with the
worker's feed id now carries last-fetched = `now`, and any feed the selector
later returns has fewer than `limit` feeds strictly staler than it — the
feed is only re-fetched once it is back among the least-recently-fetched. -/
theorem C2_mark_precedes_fetch (env : ScrapeEnv) (now : Nat) (feed : Feed) (st : Storage)
    (e : String) (hmark : env.markFail = none) (hfetch : env.fetchResult = .error e) :
    (scrapeFeed env now feed st).fetchAttempted = true ∧
    (scrapeFeed env now feed st).storage = MarkFeedFetched now feed.id st ∧
    (∀ f ∈ (scrapeFeed env now feed st).storage.feeds,
      f.id = feed.id → f.lastFetchedAt = some now) ∧
    (∀ limit g, g ∈ GetNextFeedsToFetch limit (scrapeFeed env now feed st).storage →
      ((scrapeFeed env now feed st).storage.feeds.filter (strictStaler g)).length < limit) := by
  have hrun : scrapeFeed env now feed st =
      { storage := MarkFeedFetched now feed.id st, fetchAttempted := true,
        logs := ["Error fetching feed " ++ feed.name ++ ": " ++ e] } := by
    unfold scrapeFeed
    rw [hmark, hfetch]
  refine ⟨by rw [hrun], by rw [hrun], ?_, ?_⟩
  · intro f hf hid
    rw [hrun] at hf
    simp only [MarkFeedFetched, List.mem_map] at hf
    obtain ⟨g, _, hg⟩ := hf
    by_cases hgid : g.id = feed.id
    · rw [if_pos hgid] at hg
      rw [← hg]
    · rw [if_neg hgid] at hg
      exact absurd (hg ▸ hid) hgid
  · intro limit g hg
    exact nextFeeds_few_staler hg

theorem C2_mark_precedes_fetch_witness :
    (scrapeFeed { witnessEnv with fetchResult := .error "connection refused" }
        3700 c4FeedB c4Storage).storage = MarkFeedFetched 3700 2 c4Storage ∧
    ∀ f ∈ (scrapeFeed { witnessEnv with fetchResult := .error "connection refused" }
        3700 c4FeedB c4Storage).storage.feeds,
      f.id = 2 → f.lastFetchedAt = some 3700 := by
  have h := C2_mark_precedes_fetch
    { witnessEnv with fetchResult := .error "connection refused" }
    3700 c4FeedB c4Storage "connection refused" rfl rfl
  exact ⟨h.2.1, h.2.2.1⟩

/-- C8: when the mark-fetched write fails, the worker performs no network
fetch and no insertions, surfaces no error, and leaves the storage exactly
as it was: the run only prints the failure. -/
theorem C8_mark_failure_aborts (env : ScrapeEnv) (now : Nat) (feed : Feed) (st : Storage)
    (msg : String) (h : env.markFail = some msg) :
    scrapeFeed env now feed st =
      { storage := st, fetchAttempted := false,
        logs := ["Error marking feed " ++ feed.name ++ " as fetched: " ++ msg] } := by
  unfold scrapeFeed
  rw [h]

theorem C8_mark_failure_aborts_witness :
    scrapeFeed { witnessEnv with markFail := some "deadlock detected" } 3700 c4FeedB c4Storage =
      { storage := c4Storage, fetchAttempted := false,
        logs := ["Error marking feed B as fetched: deadlock detected"] } := by
  have h := C8_mark_failure_aborts
    { witnessEnv with markFail := some "deadlock detected" }
    3700 c4FeedB c4Storage "deadlock detected" rfl
  exact h

/-- C9: `MarkFeedFetched` touches only the two timestamp columns — every
feed row keeps its id, URL, display name, owning user and creation
timestamp, and the posts table is untouched — and a whole worker run
preserves those identity columns of every feed row as well. -/
theorem C9_mark_fetched_frame :
    (∀ now fid st, List.Forall₂ feedIdentityEq st.feeds (MarkFeedFetched now fid st).feeds ∧
      (MarkFeedFetched now fid st).posts = st.posts) ∧
    (∀ env now feed st,
      List.Forall₂ feedIdentityEq st.feeds (scrapeFeed env now feed st).storage.feeds) :=
  ⟨fun now fid st => ⟨markFeedFetched_forall₂ now fid st, rfl⟩,
   fun env now feed st => scrapeFeed_forall₂ env now feed st⟩

/-! ## C5: the timer discipline of the aggregation loop -/

/-- C5 as stated is false: the claim calls the timer wall-clock fixed-delay,
with an overlong tick delaying the next tick by a full interval.  With
interval 2 and a first tick of duration 3, a ticker emission (at time 2)
is already buffered when the tick finishes at time 3, so the second tick
starts immediately at 3 — fixed-delay semantics would start it at
3 + 2 = 5. -/
theorem C5_counterexample_not_fixed_delay :
    (handlerAggTrace 2 [3, 1]).map Prod.fst = [0, 3] ∧
    (handlerAggTrace 2 [3, 1]).map Prod.fst ≠ [0, 5] := by
  decide

/-- C5 amended: the loop is sequential with a join barrier — each tick's
workers all complete before the next tick starts (so never more than one
tick's workers are in flight) — but the `time.Ticker` is fixed-rate with
tick coalescing, not fixed-delay: a tick that runs past the next emission is
followed immediately by the next tick on completion, and a tick that
finishes before the next emission waits exactly until that wall-clock
multiple of the interval. -/
theorem C5_amended_join_barrier_fixed_rate :
    ∀ (d : Nat) (durs : List Nat) (start : Nat),
      List.Chain' (fun a b : Nat × Nat =>
        a.2 ≤ b.1 ∧
        (a.1 + d ≤ a.2 → b.1 = a.2) ∧
        (a.2 ≤ d * (a.1 / d + 1) → b.1 = d * (a.1 / d + 1)))
        (tickTrace d durs start) := by
  intro d durs
  induction durs with
  | nil => intro start; exact List.chain'_nil
  | cons dur rest ih =>
    intro start
    rcases rest with _ | ⟨dur2, rest2⟩
    · exact List.chain'_singleton _
    · show List.Chain' _ ((start, start + dur) ::
        tickTrace d (dur2 :: rest2) (nextTickStart d start (start + dur)))
      rw [tickTrace, List.chain'_cons]
      refine ⟨⟨Nat.le_max_left _ _, ?_, ?_⟩, ih _⟩
      · intro hd
        have h2 : d * (start / d) ≤ start := by
          rw [Nat.mul_comm]
          exact Nat.div_mul_le_self start d
        have h1 : d * (start / d + 1) ≤ start + dur :=
          calc d * (start / d + 1) = d * (start / d) + d := by ring
            _ ≤ start + d := Nat.add_le_add_right h2 d
            _ ≤ start + dur := hd
        exact Nat.max_eq_left h1
      · intro he
        exact Nat.max_eq_right he

/-! ## C6: the reader's single request and its (absent) timeout -/

def c6URL : String := "http://a.example/rss"

/-- C6 as stated is false: the single GET request carries no bounded
timeout.  The worker passes `context.Background()` (no deadline) and the
reader's `http.Client{}` sets no timeout, so at this concrete input the
issued request has neither a context deadline nor a client timeout. -/
theorem C6_counterexample_no_bounded_timeout :
    (scrapeFeedFetch (fun _ => true) (fun s => s) (fun _ => .error "xml")
        (fun _ => .doFail "x") c6URL).2 = [fetchRequest contextBackground c6URL] ∧
    ¬((fetchRequest contextBackground c6URL).ctxDeadline ≠ none ∨
      (fetchRequest contextBackground c6URL).clientTimeout ≠ none) := by
  exact ⟨rfl, by decide⟩

/-- C6 amended: for every URL the request constructor accepts, `FetchFeed`
issues exactly one HTTP request — a GET carrying the `User-Agent: gator`
header and the caller's cancellation context — but no bounded timeout is
configured: the client's timeout is absent, and the worker's call passes a
background context, so its request has no deadline either. -/
theorem C6_amended_single_get_no_timeout (urlValid : String → Bool)
    (unescape : String → String) (xmlDecode : String → Except String RSSFeed)
    (net : HTTPRequest → NetOutcome) (ctx : Context) (feedURL : String)
    (h : urlValid feedURL = true) :
    (FetchFeed urlValid unescape xmlDecode net ctx feedURL).2 = [fetchRequest ctx feedURL] ∧
    (fetchRequest ctx feedURL).method = "GET" ∧
    (fetchRequest ctx feedURL).userAgent = "gator" ∧
    (fetchRequest ctx feedURL).ctxDeadline = ctx.deadline ∧
    (fetchRequest ctx feedURL).clientTimeout = none ∧
    (scrapeFeedFetch urlValid unescape xmlDecode net feedURL).2 =
      [fetchRequest contextBackground feedURL] ∧
    (fetchRequest contextBackground feedURL).ctxDeadline = none := by
  have hreq : ∀ c : Context,
      (FetchFeed urlValid unescape xmlDecode net c feedURL).2 = [fetchRequest c feedURL] := by
    intro c
    unfold FetchFeed
    rw [if_pos h]
    cases hn : net (fetchRequest c feedURL) with
    | doFail msg => simp [hn]
    | readFail msg => simp [hn]
    | success status body =>
      cases hx : xmlDecode body with
      | error msg => simp [hn, hx]
      | ok feed => simp [hn, hx]
  exact ⟨hreq ctx, rfl, rfl, rfl, rfl, hreq contextBackground, rfl⟩

theorem C6_amended_witness :
    (FetchFeed (fun _ => true) (fun s => s) (fun _ => .error "xml")
        (fun _ => .doFail "x") contextBackground c6URL).2 =
      [fetchRequest contextBackground c6URL] := by
  have h := C6_amended_single_get_no_timeout (fun _ => true) (fun s => s)
    (fun _ => .error "xml") (fun _ => .doFail "x") contextBackground c6URL rfl
  exact h.1

/-! ## C10: the reader never inspects the response status code -/

/-- C10: `FetchFeed` never consults the response's status code.  Whatever
the status — 404 and 500 included — a body that decodes as an RSS document
yields a successful result (the decoded feed, entity-unescaped), and a body
that fails to decode yields the decoder's error (a parse failure), not a
network failure. -/
theorem C10_status_never_inspected (urlValid : String → Bool)
    (unescape : String → String) (xmlDecode : String → Except String RSSFeed)
    (net : HTTPRequest → NetOutcome) (ctx : Context) (feedURL : String)
    (status : Nat) (body : String)
    (h : urlValid feedURL = true)
    (hnet : net (fetchRequest ctx feedURL) = .success status body) :
    (∀ feed, xmlDecode body = .ok feed →
      FetchFeed urlValid unescape xmlDecode net ctx feedURL =
        (.ok (unescapeFeed unescape feed), [fetchRequest ctx feedURL])) ∧
    (∀ msg, xmlDecode body = .error msg →
      FetchFeed urlValid unescape xmlDecode net ctx feedURL =
        (.error (.parseErr msg), [fetchRequest ctx feedURL])) := by
  constructor
  · intro feed hx
    unfold FetchFeed
    rw [if_pos h]
    simp [hnet, hx]
  · intro msg hx
    unfold FetchFeed
    rw [if_pos h]
    simp [hnet, hx]

def c10Feed : RSSFeed :=
  { channel := { title := "t", link := "l", description := "d", item := [] } }

/-- A decoder that accepts exactly one body. -/
def c10Decode : String → Except String RSSFeed :=
  fun b => if b = "<rss>ok</rss>" then .ok c10Feed else .error "xml: syntax error"

/-- A network that answers every request with status 404 and an RSS body. -/
def c10Net : HTTPRequest → NetOutcome := fun _ => .success 404 "<rss>ok</rss>"

theorem C10_status_never_inspected_witness :
    FetchFeed (fun _ => true) (fun s => s) c10Decode c10Net contextBackground c6URL =
      (.ok (unescapeFeed (fun s => s) c10Feed), [fetchRequest contextBackground c6URL]) := by
  have h := C10_status_never_inspected (fun _ => true) (fun s => s) c10Decode c10Net
    contextBackground c6URL 404 "<rss>ok</rss>" rfl rfl
  exact h.1 c10Feed rfl

/-! ## C1: the store step — dedup by canonical URL, per-item isolation -/

lemma postCount_append_post (st : Storage) (p : Post) (u : String) :
    postCount u { st with posts := st.posts ++ [p] } =
      postCount u st + (if p.url = u then 1 else 0) := by
  simp only [postCount, List.filter_append, List.length_append]
  by_cases h : p.url = u <;> simp [h]

lemma postCount_eq_zero_iff {st : Storage} {u : String} :
    postCount u st = 0 ↔ (st.posts.any fun q => q.url = u) = false := by
  simp [postCount, List.length_eq_zero, List.filter_eq_nil_iff, List.any_eq_false]

lemma one_le_postCount_iff {st : Storage} {u : String} :
    1 ≤ postCount u st ↔ (st.posts.any fun q => q.url = u) = true := by
  rw [Nat.one_le_iff_ne_zero, Ne, postCount_eq_zero_iff]
  simp

lemma CreatePost_ok {fault : Option String} {p : CreatePostParams} {st : Storage}
    {pr : Post × Storage} (h : CreatePost fault p st = .ok pr) :
    (st.posts.any fun q => q.url = p.url) = false ∧ fault = none ∧
      pr.1 = mkPost p ∧ pr.2 = { st with posts := st.posts ++ [mkPost p] } := by
  unfold CreatePost at h
  split at h
  · cases h
  · next hany =>
    refine ⟨by simpa using hany, ?_⟩
    cases fault with
    | some msg => cases h
    | none => exact ⟨rfl, by cases h; exact ⟨rfl, rfl⟩⟩

lemma CreatePost_error_of_fault_free {p : CreatePostParams} {st : Storage} {msg : String}
    (h : CreatePost none p st = .error msg) :
    msg = postsDupErrMsg ∧ (st.posts.any fun q => q.url = p.url) = true := by
  unfold CreatePost at h
  split at h
  · next hany => exact ⟨by cases h; rfl, hany⟩
  · cases h

lemma storePosts_cons_dup {faults : Nat → Option String} {now : Nat} {feed : Feed}
    {idBase : Nat} {item : RawItem} {rest : List RawItem} {st : Storage}
    (hAny : (st.posts.any fun q => q.url = item.link) = true) :
    storePosts faults now feed idBase (item :: rest) st =
      storePosts (fun i => faults (i + 1)) now feed (idBase + 1) rest st := by
  have hc : CreatePost (faults 0) (itemParams now idBase feed.id item) st =
      .error postsDupErrMsg := by
    simp [CreatePost, itemParams, hAny]
  rw [storePosts, hc]
  simp

/-- Any insert error leaves the storage of this step unchanged; processing
continues with the remaining items. -/
lemma storePosts_cons_error_storage {faults : Nat → Option String} {now : Nat} {feed : Feed}
    {idBase : Nat} {item : RawItem} {rest : List RawItem} {st : Storage} {msg : String}
    (hc : CreatePost (faults 0) (itemParams now idBase feed.id item) st = .error msg) :
    (storePosts faults now feed idBase (item :: rest) st).1 =
      (storePosts (fun i => faults (i + 1)) now feed (idBase + 1) rest st).1 := by
  rw [storePosts, hc]
  by_cases hm : msg = postsDupErrMsg <;> simp [hm]

lemma storePosts_cons_ok_eq {faults : Nat → Option String} {now : Nat} {feed : Feed}
    {idBase : Nat} {item : RawItem} {rest : List RawItem} {st : Storage}
    {pr : Post × Storage}
    (hc : CreatePost (faults 0) (itemParams now idBase feed.id item) st = .ok pr) :
    storePosts faults now feed idBase (item :: rest) st =
      storePosts (fun i => faults (i + 1)) now feed (idBase + 1) rest pr.2 := by
  obtain ⟨post, st'⟩ := pr
  rw [storePosts, hc]

lemma storePosts_cons_fault {faults : Nat → Option String} {now : Nat} {feed : Feed}
    {idBase : Nat} {item : RawItem} {rest : List RawItem} {st : Storage} {msg : String}
    (hAny : (st.posts.any fun q => q.url = item.link) = false)
    (hf : faults 0 = some msg) (hmsg : msg ≠ postsDupErrMsg) :
    storePosts faults now feed idBase (item :: rest) st =
      ((storePosts (fun i => faults (i + 1)) now feed (idBase + 1) rest st).1,
       ("Error creating post " ++ item.title ++ ": " ++ msg) ::
         (storePosts (fun i => faults (i + 1)) now feed (idBase + 1) rest st).2) := by
  have hc : CreatePost (faults 0) (itemParams now idBase feed.id item) st = .error msg := by
    simp [CreatePost, itemParams, hAny, hf]
  rw [storePosts, hc]
  simp [hmsg]

lemma storePosts_postCount_mono (now : Nat) (feed : Feed) (u : String) :
    ∀ (items : List RawItem) (faults : Nat → Option String) (idBase : Nat) (st : Storage),
      postCount u st ≤ postCount u (storePosts faults now feed idBase items st).1 := by
  intro items
  induction items with
  | nil => intro faults idBase st; exact Nat.le_refl _
  | cons item rest ih =>
    intro faults idBase st
    cases hc : CreatePost (faults 0) (itemParams now idBase feed.id item) st with
    | error msg =>
      rw [storePosts_cons_error_storage hc]
      exact ih _ _ st
    | ok pr =>
      obtain ⟨hany, hfault, _, hpr⟩ := CreatePost_ok hc
      rw [storePosts_cons_ok_eq hc]
      refine Nat.le_trans ?_ (ih _ _ pr.2)
      rw [hpr, postCount_append_post]
      exact Nat.le_add_right _ _

lemma storePosts_postCount_le_one (now : Nat) (feed : Feed) (u : String) :
    ∀ (items : List RawItem) (faults : Nat → Option String) (idBase : Nat) (st : Storage),
      postCount u (storePosts faults now feed idBase items st).1 ≤
        max (postCount u st) 1 := by
  intro items
  induction items with
  | nil => intro faults idBase st; exact Nat.le_max_left _ _
  | cons item rest ih =>
    intro faults idBase st
    cases hc : CreatePost (faults 0) (itemParams now idBase feed.id item) st with
    | error msg =>
      rw [storePosts_cons_error_storage hc]
      exact ih _ _ st
    | ok pr =>
      obtain ⟨hany, hfault, _, hpr⟩ := CreatePost_ok hc
      rw [storePosts_cons_ok_eq hc]
      refine Nat.le_trans (ih _ _ pr.2) ?_
      rw [hpr, postCount_append_post]
      by_cases hu : (mkPost (itemParams now idBase feed.id item)).url = u
      · have h0 : postCount u st = 0 := by
          apply postCount_eq_zero_iff.mpr
          rw [← hu]
          exact hany
        simp [hu, h0]
      · simp [hu]

lemma storePosts_postCount_ge_one (now : Nat) (feed : Feed) (u : String) :
    ∀ (items : List RawItem) (faults : Nat → Option String) (idBase : Nat) (st : Storage),
      (∀ i, faults i = none) →
      ((∃ it ∈ items, it.link = u) ∨ 1 ≤ postCount u st) →
      1 ≤ postCount u (storePosts faults now feed idBase items st).1 := by
  intro items
  induction items with
  | nil =>
    intro faults idBase st _ h
    rcases h with h | h
    · obtain ⟨it, hmem, _⟩ := h; cases hmem
    · exact h
  | cons item rest ih =>
    intro faults idBase st hfaults h
    cases hc : CreatePost (faults 0) (itemParams now idBase feed.id item) st with
    | error msg =>
      rw [storePosts_cons_error_storage hc]
      rw [hfaults 0] at hc
      obtain ⟨hm, hany⟩ := CreatePost_error_of_fault_free hc
      apply ih _ _ st (fun i => hfaults (i + 1))
      rcases h with h | hcount
      · obtain ⟨it, hmem, hlink⟩ := h
        rcases List.mem_cons.mp hmem with rfl | hr
        · right
          apply one_le_postCount_iff.mpr
          rw [← hlink]
          simpa [itemParams] using hany
        · left; exact ⟨it, hr, hlink⟩
      · right; exact hcount
    | ok pr =>
      obtain ⟨hany, _, _, hpr⟩ := CreatePost_ok hc
      rw [storePosts_cons_ok_eq hc]
      apply ih _ _ pr.2 (fun i => hfaults (i + 1))
      rcases h with hex | hcount
      · obtain ⟨it, hmem, hlink⟩ := hex
        rcases List.mem_cons.mp hmem with rfl | hr
        · right
          rw [hpr, postCount_append_post]
          have hu : (mkPost (itemParams now idBase feed.id it)).url = u := by
            simpa [mkPost, itemParams] using hlink
          simp [hu]
        · left; exact ⟨it, hr, hlink⟩
      · right
        rw [hpr, postCount_append_post]
        exact Nat.le_trans hcount (Nat.le_add_right _ _)

/-! Concrete three-item scenario: the reader returns three items and the
first item's URL is already stored. -/

def c1URL : String := "http://x.example/p1"

def c1Item1 : RawItem :=
  { title := "P1", link := c1URL, description := "", pubDate := goZeroTime }

def c1Item2 : RawItem :=
  { title := "P2", link := "http://x.example/p2", description := "d2", pubDate := goZeroTime }

def c1Item3 : RawItem :=
  { title := "P3", link := "http://x.example/p3", description := "", pubDate := goZeroTime }

def c1Existing : Post :=
  { id := 9, createdAt := 0, updatedAt := 0, title := "P1", url := c1URL,
    description := none, publishedAt := none, feedId := 2 }

def c1Storage : Storage := { feeds := [c4FeedB], posts := [c1Existing] }

def c1Env : ScrapeEnv :=
  { markFail := none, fetchResult := .ok [c1Item1, c1Item2, c1Item3],
    insertFaults := fun _ => none, idBase := 100 }

/-- A later tick's worker run fetching the same three items again. -/
def c1Env2 : ScrapeEnv := { c1Env with idBase := 200 }

/-- C1: in the worker's store step, one insert is attempted per item keyed
by its canonical URL; a uniqueness violation is swallowed silently and that
item is skipped, any other insert error is logged and only skips that item
while the rest are processed; the URL-count of the resulting storage never
exceeds one (given the unique index), never decreases, and a fault-free run
containing an item with URL `u` leaves at least one — hence, with both
bounds, exactly one — post with that URL, over any number of runs.
Concretely: three items with one URL already stored create exactly two new
posts and print no error, and re-fetching the same items in a later tick
still leaves exactly one post with the duplicated URL.  The worker returns
nothing, so none of this ever reaches the tick caller as an error. -/
theorem C1_store_step_dedup_isolation :
    (∀ faults now feed idBase item rest st,
      (st.posts.any fun q => q.url = item.link) = true →
      storePosts faults now feed idBase (item :: rest) st =
        storePosts (fun i => faults (i + 1)) now feed (idBase + 1) rest st) ∧
    (∀ faults now feed idBase item rest st msg,
      (st.posts.any fun q => q.url = item.link) = false →
      faults 0 = some msg → msg ≠ postsDupErrMsg →
      storePosts faults now feed idBase (item :: rest) st =
        ((storePosts (fun i => faults (i + 1)) now feed (idBase + 1) rest st).1,
         ("Error creating post " ++ item.title ++ ": " ++ msg) ::
           (storePosts (fun i => faults (i + 1)) now feed (idBase + 1) rest st).2)) ∧
    (∀ faults now feed idBase items st u,
      postCount u (storePosts faults now feed idBase items st).1 ≤
        max (postCount u st) 1) ∧
    (∀ faults now feed idBase items st u,
      postCount u st ≤ postCount u (storePosts faults now feed idBase items st).1) ∧
    (∀ faults now feed idBase items st u,
      (∀ i, faults i = none) → (∃ it ∈ items, it.link = u) →
      1 ≤ postCount u (storePosts faults now feed idBase items st).1) ∧
    (c1Storage.posts.length = 1 ∧
      (scrapeFeed c1Env 3700 c4FeedB c1Storage).storage.posts.length = 3 ∧
      (scrapeFeed c1Env 3700 c4FeedB c1Storage).logs = ["Found 3 posts in B"] ∧
      postCount c1URL (scrapeFeed c1Env 3700 c4FeedB c1Storage).storage = 1 ∧
      postCount c1URL
        (scrapeFeed c1Env2 7300 c4FeedB
          (scrapeFeed c1Env 3700 c4FeedB c1Storage).storage).storage = 1) := by
  refine ⟨?_, ?_, ?_, ?_, ?_, ?_⟩
  · intro faults now feed idBase item rest st h
    exact storePosts_cons_dup h
  · intro faults now feed idBase item rest st msg h hf hmsg
    exact storePosts_cons_fault h hf hmsg
  · intro faults now feed idBase items st u
    exact storePosts_postCount_le_one now feed u items faults idBase st
  · intro faults now feed idBase items st u
    exact storePosts_postCount_mono now feed u items faults idBase st
  · intro faults now feed idBase items st u hf hex
    exact storePosts_postCount_ge_one now feed u items faults idBase st hf (Or.inl hex)
  · exact ⟨rfl, by decide, by decide, by decide, by decide⟩

/-! ## C7: publish-date normalization -/

/-- C7: `ParsePubDate` never returns an error, for any input; the empty
string yields the zero (absent) timestamp; a string no format matches
yields the zero timestamp; when some format matches, the resulting time is
the first match over the ordered format list (the head of the list wins as
soon as it parses); and the input "Mon, 02 Jan 2006 15:04:05 -0700" parses
— via the first format, RFC1123Z — to the exact instant it encodes, Unix
second 1136239445 (2006-01-02T22:04:05Z). -/
theorem C7_pubdate_first_match_no_error :
    (∀ s, (ParsePubDate s).2 = none) ∧
    ParsePubDate "" = (goZeroTime, none) ∧
    (∀ s, parseFirst rssDateFormats s = none → ParsePubDate s = (goZeroTime, none)) ∧
    (∀ s t, parseFirst rssDateFormats s = some t → s ≠ "" → ParsePubDate s = (t, none)) ∧
    (∀ (p : String → Option GoTime) ps s t, p s = some t →
      parseFirst (p :: ps) s = some t) ∧
    (ParsePubDate "Mon, 02 Jan 2006 15:04:05 -0700" =
      ({ year := 2006, month := 1, day := 2, hour := 15, minute := 4, second := 5,
         offsetMinutes := -420 }, none) ∧
      goTimeToUnix (ParsePubDate "Mon, 02 Jan 2006 15:04:05 -0700").1 = 1136239445) ∧
    ParsePubDate "not a date" = (goZeroTime, none) := by
  refine ⟨?_, rfl, ?_, ?_, ?_, ⟨by decide, by decide⟩, by decide⟩
  · intro s
    by_cases hs : s = ""
    · simp [ParsePubDate, hs]
    · cases hp : parseFirst rssDateFormats s <;> simp [ParsePubDate, hs, hp]
  · intro s hp
    by_cases hs : s = ""
    · simp [ParsePubDate, hs]
    · simp [ParsePubDate, hs, hp]
  · intro s t hp hs
    simp [ParsePubDate, hs, hp]
  · intro p ps s t h
    simp [parseFirst, h]

end Gator
